import Mathlib

/-!
Verification of the nginx upstream healthcheck module
(src/ngx_http_healthcheck_module.c) against its specification.

Shallow embedding: the HTTP response recognizer, the verdict filter, the
ownership protocol, the read-handler recv loop, the status query and the
shared-zone initialization are transcribed as executable Lean functions
over explicit state records.  Machine-word arithmetic (ngx_uint_t,
ngx_msec_t on the usual LP64 build) is modelled as Nat modulo 2 ^ 64.
Bytes are modelled as Nat values (for example 32 is the space byte, 13 is
carriage return, 10 is line feed, 48 to 57 are the decimal digits).
-/

/-- ngx_http_health_state: in-progress probe states and terminal outcome
codes (enum at lines 17 to 38 of the C source). -/
inductive HState where
  | uninit
  | waiting
  | sendingCheck
  | readingStatLine
  | readingStatCode
  | readingHeader
  | headerAlmostDone
  | readingBody
  | ok
  | badHeader
  | badStatus
  | badBody
  | badState
  | badConn
  | badCode
  | timeout
  | fullBuffer
  deriving DecidableEq, Repr

/-- Terminal (outcome) states, the values that can be written to the shared
slot field down_code. -/
def isTerminal (s : HState) : Bool :=
  match s with
  | .ok | .badHeader | .badStatus | .badBody | .badState
  | .badConn | .badCode | .timeout | .fullBuffer => true
  | _ => false

/-- Modulus of the unsigned machine word (ngx_uint_t / ngx_msec_t on LP64). -/
def wordSize : Nat := 2 ^ 64

/-- NGX_CONF_UNSET_SIZE, the all-ones size_t marking an unset
health_expected directive. -/
def ngxConfUnsetSize : Nat := 2 ^ 64 - 1

/-- Length field of health_expected: the configured byte count, or
NGX_CONF_UNSET_SIZE when the directive is absent. -/
def expLen (e : Option (List Nat)) : Nat :=
  match e with
  | none => ngxConfUnsetSize
  | some l => l.length

/-- Byte i of health_expected.data.  When the directive is absent the C
code would dereference a null pointer here; that case is unreachable from
the initial parser state (readingBody is entered only when expLen is not
NGX_CONF_UNSET_SIZE), and is modelled by the arbitrary byte 0. -/
def expByte (e : Option (List Nat)) (i : Nat) : Nat :=
  match e with
  | none => 0
  | some l => l.getD i 0

/-- Parser-relevant slice of ngx_http_healthcheck_status_t: the probe
state, the accumulated HTTP status code (stat_code, an ngx_uint_t) and the
position inside the expected body (body_read_pos). -/
structure PCfg where
  state : HState
  stat_code : Nat
  body_read_pos : Nat
  deriving DecidableEq, Repr

/-- Result of consuming a single byte inside the switch of
ngx_http_healthcheck_process_recv: either the updated record (the loop
continues) or a halt carrying the state assigned just before an early
return (NGX_HEALTH_OK with NGX_OK, or a bad state with NGX_ERROR). -/
inductive StepOut where
  | cont (c : PCfg)
  | halt (v : HState)
  deriving DecidableEq, Repr

/-- One iteration of the byte loop of ngx_http_healthcheck_process_recv
(lines 431 to 490 of the C source). -/
def stepByte (e : Option (List Nat)) (c : PCfg) (ch : Nat) : StepOut :=
  match c.state with
  | .readingStatLine =>
      if ch = 32 then
        .cont { c with state := .readingStatCode, stat_code := 0 }
      else if ch = 13 ∨ ch = 10 then
        .halt .badStatus
      else
        .cont c
  | .readingStatCode =>
      if ch = 32 then
        if c.stat_code ≠ 200 then
          .halt .badCode
        else
          .cont { c with state := .readingHeader }
      else if ch < 48 ∨ 57 < ch then
        .halt .badStatus
      else
        .cont { c with stat_code := (c.stat_code * 10 + (ch - 48)) % wordSize }
  | .readingHeader =>
      if ch = 10 then
        .cont { c with state := .headerAlmostDone }
      else
        .cont c
  | .headerAlmostDone =>
      if ch = 10 then
        if expLen e = ngxConfUnsetSize then
          .halt .ok
        else
          .cont { c with state := .readingBody }
      else if ch ≠ 13 then
        .cont { c with state := .readingHeader }
      else
        .cont c
  | .readingBody =>
      if c.body_read_pos = expLen e then
        .halt .badBody
      else if ch ≠ expByte e c.body_read_pos then
        .halt .badBody
      else
        .cont { c with body_read_pos := c.body_read_pos + 1 }
  | _ => .halt .badState

/-- The while loop of ngx_http_healthcheck_process_recv: consume the
unread bytes one at a time, returning early on any halting transition. -/
def consume (e : Option (List Nat)) (c : PCfg) : List Nat → StepOut
  | [] => .cont c
  | ch :: rest =>
      match stepByte e c ch with
      | .cont c₁ => consume e c₁ rest
      | .halt v => .halt v

/-- Return protocol of ngx_http_healthcheck_process_recv as seen by the
read handler: done v stands for an NGX_OK or NGX_ERROR return with the
probe state set to v (the handler then finishes the probe with verdict v),
and more c stands for NGX_AGAIN with the parser record left at c. -/
inductive RecvOut where
  | done (v : HState)
  | more (c : PCfg)
  deriving DecidableEq, Repr

/-- ngx_http_healthcheck_process_recv (lines 411 to 501 of the C source):
run the byte loop, then apply the two end-of-buffer checks, namely
acceptance of a completely matched body and of an already-OK state;
anything non-terminal is NGX_AGAIN. -/
def ngx_http_healthcheck_process_recv
    (e : Option (List Nat)) (c : PCfg) (bytes : List Nat) : RecvOut :=
  match consume e c bytes with
  | .halt v => .done v
  | .cont c₁ =>
      if c₁.state = .readingBody ∧ c₁.body_read_pos = expLen e then
        .done .ok
      else if c₁.state = .ok then
        .done .ok
      else
        .more c₁

/-- Parser record at the start of a probe: the write handler moves the
state to NGX_HEALTH_READING_STAT_LINE after the request is fully sent, and
begin_healthcheck resets body_read_pos (stat_code is reset on entering the
status code state). -/
def initCfg : PCfg :=
  { state := .readingStatLine, stat_code := 0, body_read_pos := 0 }

/-- Feeding the incremental recognizer two chunks in sequence, the way the
read handler does: each readable event appends bytes and calls
process_recv once; a done verdict finishes the probe, so the second chunk
is parsed only after an NGX_AGAIN. -/
def feedTwo (e : Option (List Nat)) (c : PCfg) (bs₁ bs₂ : List Nat) : RecvOut :=
  match ngx_http_healthcheck_process_recv e c bs₁ with
  | .done v => .done v
  | .more c₁ => ngx_http_healthcheck_process_recv e c₁ bs₂

/-- ngx_http_healthcheck_status_shm_t (lines 40 to 64 of the C source):
one shared-memory slot per peer.  down and last_down are modelled as Bool
(the C code writes only 0 or 1 to them), concurrent as Int (ngx_int_t),
the timestamps and identifiers as Nat machine words. -/
structure ShmSlot where
  owner : Nat
  index : Nat
  action_time : Nat
  concurrent : Int
  since : Nat
  last_down : Bool
  down_code : HState
  lock : Nat
  down : Bool
  deriving DecidableEq, Repr

/-- A default slot value, used only to give List.getD a fallback. -/
def dfltSlot : ShmSlot :=
  { owner := 0, index := 0, action_time := 0, concurrent := 0, since := 0,
    last_down := false, down_code := .uninit, lock := 0, down := false }

/-- Result of ngx_http_healthcheck_mark_finished: the updated shared slot,
the private probe state afterwards, the delay of the re-armed health timer
(none when shutting down), and whether all events were cleared. -/
structure FinOut where
  shm : ShmSlot
  state : HState
  health_timer : Option Nat
  cleared : Bool
  deriving DecidableEq, Repr

/-- ngx_http_healthcheck_mark_finished (lines 254 to 288 of the C source).
st is the terminal probe state, now is ngx_current_msec, failcount and
delay come from the configuration, shuttingDown models
ngx_terminate or ngx_exiting or ngx_quit. -/
def ngx_http_healthcheck_mark_finished
    (now : Nat) (failcount : Int) (delay : Nat) (shuttingDown : Bool)
    (st : HState) (shm : ShmSlot) : FinOut :=
  let shm₁ :=
    if st = .ok then
      if shm.last_down then
        { shm with last_down := false, concurrent := 1, since := now }
      else
        { shm with concurrent := shm.concurrent + 1 }
    else
      if shm.last_down then
        { shm with concurrent := shm.concurrent + 1 }
      else
        { shm with last_down := true, concurrent := 1, since := now }
  let shm₂ :=
    if shm₁.concurrent ≥ failcount then
      { shm₁ with down := shm₁.last_down }
    else
      shm₁
  let shm₃ := { shm₂ with down_code := st }
  let shm₄ := { shm₃ with action_time := now }
  { shm := shm₄,
    state := .waiting,
    health_timer := if shuttingDown then none else some delay,
    cleared := shuttingDown }

/-- Unsigned machine-word subtraction, the ngx_msec_t arithmetic of
now - action_time. -/
def msub (a b : Nat) : Nat :=
  (a % wordSize + (wordSize - b % wordSize)) % wordSize

/-- Result of ngx_http_healthcheck_try_for_ownership: the updated shared
slot, the private probe state, the delays of any timers armed (health_ev
and ownership_ev), the local i_own_it flag, and whether events were
cleared because of shutdown. -/
structure OwnOut where
  shm : ShmSlot
  state : HState
  health_timer : Option Nat
  ownership_timer : Option Nat
  i_own_it : Bool
  cleared : Bool
  deriving DecidableEq, Repr

/-- ngx_http_healthcheck_try_for_ownership (lines 555 to 593 of the C
source).  The spinlock write and its compare-and-swap release net to
lock := 0 in every execution (on CAS failure the code forces the lock to
zero); the critical section itself is the owner test and the staleness
takeover. -/
def ngx_http_healthcheck_try_for_ownership
    (pid now delay tmo : Nat) (terminating : Bool)
    (st : HState) (shm : ShmSlot) : OwnOut :=
  if terminating then
    { shm := shm, state := st, health_timer := none, ownership_timer := none,
      i_own_it := false, cleared := true }
  else if shm.owner = pid then
    { shm := { shm with lock := 0 }, state := st, health_timer := none,
      ownership_timer := none, i_own_it := true, cleared := false }
  else if (delay + tmo) * 3 ≤ msub now shm.action_time then
    { shm := { shm with owner := pid, action_time := now, lock := 0 },
      state := .waiting, health_timer := some delay, ownership_timer := none,
      i_own_it := true, cleared := false }
  else
    { shm := { shm with lock := 0 }, state := st, health_timer := none,
      ownership_timer := some (delay * 10), i_own_it := false,
      cleared := false }

/-- Observable events of one run of the ownership handler, in program
order.  io_op and sleep_op are in the alphabet so that their absence is a
statement, but no code path of the handler performs them. -/
inductive OwnEvent where
  | lock_acquire
  | write_shared
  | timer_add (dur : Nat)
  | timer_del
  | io_op
  | sleep_op
  | lock_release
  deriving DecidableEq, Repr

/-- Event trace of ngx_http_healthcheck_try_for_ownership past the
shutdown check (lines 570 to 592 of the C source), in the exact order the
C statements execute: the spinlock acquisition, then inside the critical
section the takeover writes and the ngx_add_timer of health_ev (line 578),
then the CAS release, then, outside the lock, the ngx_add_timer of
ownership_ev when the worker does not own the peer. -/
def ngx_http_healthcheck_try_for_ownership_trace
    (pid now delay tmo : Nat) (shm : ShmSlot) : List OwnEvent :=
  [OwnEvent.lock_acquire] ++
  (if shm.owner = pid then
    []
  else if (delay + tmo) * 3 ≤ msub now shm.action_time then
    [OwnEvent.write_shared, OwnEvent.timer_add delay]
  else
    []) ++
  [OwnEvent.lock_release] ++
  (if shm.owner = pid ∨ (delay + tmo) * 3 ≤ msub now shm.action_time then
    []
  else
    [OwnEvent.timer_add (delay * 10)])

/-- True on every event other than the spinlock acquisition. -/
def notAcquire (e : OwnEvent) : Bool :=
  match e with
  | .lock_acquire => false
  | _ => true

/-- True on every event other than the spinlock release. -/
def notRelease (e : OwnEvent) : Bool :=
  match e with
  | .lock_release => false
  | _ => true

/-- The events strictly between the spinlock acquisition and its release. -/
def critSection (tr : List OwnEvent) : List OwnEvent :=
  ((tr.dropWhile notAcquire).drop 1).takeWhile notRelease

/-- Timer arm or cancel events. -/
def isTimerOp (e : OwnEvent) : Bool :=
  match e with
  | .timer_add _ => true
  | .timer_del => true
  | _ => false

/-- I/O and sleep events. -/
def isBlockingOp (e : OwnEvent) : Bool :=
  match e with
  | .io_op => true
  | .sleep_op => true
  | _ => false

/-- One result of c.recv as the read handler sees it: NGX_ERROR, NGX_AGAIN,
a zero return (peer closed), or a positive byte count. -/
inductive RecvRes where
  | err
  | again
  | closed
  | got (n : Nat)
  deriving DecidableEq, Repr

/-- The read buffer cursors the recv loop manipulates: pos is the write
cursor (rb->pos in the C source, which uses pos rather than last) and endp
is rb->end. -/
structure RBuf where
  pos : Nat
  endp : Nat
  deriving DecidableEq, Repr

/-- The do-while recv loop of ngx_http_healthcheck_read_handler (lines 362
to 382 of the C source), transcribed with its loop condition exactly as
written: repeat while rb->end < rb->pos.  The script lists the successive
recv results; recv returns at most the requested end - pos bytes, hence
the min.  Returns the buffer, whether the state became BAD_CONN, and the
number of recv calls made. -/
def recvLoop : RBuf → List RecvRes → Nat → RBuf × Bool × Nat
  | rb, [], calls => (rb, false, calls)
  | rb, r :: rest, calls =>
      match r with
      | .err => (rb, true, calls + 1)
      | .again => (rb, false, calls + 1)
      | .closed => (rb, true, calls + 1)
      | .got n =>
          let rb₁ : RBuf := { rb with pos := rb.pos + min n (rb.endp - rb.pos) }
          if rb₁.endp < rb₁.pos then
            recvLoop rb₁ rest (calls + 1)
          else
            (rb₁, false, calls + 1)

/-- The recv loop as section 4.3 of the specification words it: after a
non-zero read advance the write cursor and continue (while buffer space
remains); stop only on error, close, or would-block.  Used to exhibit the
divergence of the C loop condition from the specified behaviour. -/
def recvLoopSpec : RBuf → List RecvRes → Nat → RBuf × Bool × Nat
  | rb, [], calls => (rb, false, calls)
  | rb, r :: rest, calls =>
      match r with
      | .err => (rb, true, calls + 1)
      | .again => (rb, false, calls + 1)
      | .closed => (rb, true, calls + 1)
      | .got n =>
          let rb₁ : RBuf := { rb with pos := rb.pos + min n (rb.endp - rb.pos) }
          if rb₁.pos < rb₁.endp then
            recvLoopSpec rb₁ rest (calls + 1)
          else
            (rb₁, false, calls + 1)

/-- The dispatch on the parser result in ngx_http_healthcheck_read_handler
(lines 384 to 405 of the C source), on the path where the recv loop did
not flag a bad connection: a done verdict finishes the probe with that
verdict; NGX_AGAIN finishes with FULL_BUFFER exactly when the read buffer
has no free space left (rb->end == rb->pos), and otherwise waits for the
next readable event (result none). -/
def ngx_http_healthcheck_read_verdict
    (e : Option (List Nat)) (c : PCfg) (bytes : List Nat)
    (bufferFull : Bool) : Option HState :=
  match ngx_http_healthcheck_process_recv e c bytes with
  | .done v => some v
  | .more _ => if bufferFull then some .fullBuffer else none

/-- The per-upstream configuration flag consulted by is_down. -/
structure UpstreamConf where
  healthcheck_enabled : Bool
  deriving DecidableEq, Repr

/-- ngx_http_healthcheck_is_down (lines 748 to 752 of the C source):
index < nelts, then the upstream flag, then the shared slot down bit, with
C short-circuit evaluation. -/
def ngx_http_healthcheck_is_down
    (peers : List UpstreamConf) (shm : List ShmSlot) (index : Nat) : Bool :=
  decide (index < peers.length) &&
    ((peers.getD index { healthcheck_enabled := false }).healthcheck_enabled &&
      (shm.getD index dfltSlot).down)

/-- The loop body of ngx_http_healthcheck_init_zone over slot i onward:
write index, action_time, down and since, leave every other field as the
slab allocator returned it. -/
def initZoneGo (now : Nat) (i : Nat) : List ShmSlot → List ShmSlot
  | [] => []
  | s :: rest =>
      { s with index := i, action_time := 0, down := false, since := now } ::
        initZoneGo now (i + 1) rest

/-- ngx_http_healthcheck_init_zone (lines 694 to 726 of the C source) on
the first mapping of the zone (data == NULL): the freshly slab-allocated
slots, whose fields are arbitrary, get index := i, action_time := 0,
down := 0 and since := ngx_current_msec, and nothing else is written. -/
def ngx_http_healthcheck_init_zone (now : Nat) (slots : List ShmSlot) : List ShmSlot :=
  initZoneGo now 0 slots

/-- Machine-word value that stat_code holds after the status-code state
consumes the digit bytes ds, starting from accumulator s (the C update is
stat_code = stat_code * 10 + (ch - 48) in ngx_uint_t arithmetic). -/
def digitsAcc (s : Nat) (ds : List Nat) : Nat :=
  ds.foldl (fun a d => (a * 10 + (d - 48)) % wordSize) s

/-- Unbounded decimal value of a digit byte string, from accumulator s. -/
def digitsValFrom (s : Nat) (ds : List Nat) : Nat :=
  ds.foldl (fun a d => a * 10 + (d - 48)) s

/-- Unbounded decimal value of a digit byte string. -/
def digitsVal (ds : List Nat) : Nat :=
  digitsValFrom 0 ds

/-- The byte loop is compositional: consuming a concatenation is consuming
the first part and, unless it halted, continuing with the second. -/
theorem consume_append (e : Option (List Nat)) (bs₁ bs₂ : List Nat) :
    ∀ c : PCfg, consume e c (bs₁ ++ bs₂) =
      match consume e c bs₁ with
      | .cont c₁ => consume e c₁ bs₂
      | .halt v => .halt v := by
  induction bs₁ with
  | nil => intro c; simp [consume]
  | cons ch rest ih =>
      intro c
      cases h : stepByte e c ch with
      | cont c₁ => simp [consume, h, ih]
      | halt v => simp [consume, h]

/-- A continuing byte step never leaves the record in the OK state: the
only transition into OK is a halting one. -/
theorem stepByte_cont_ne_ok (e : Option (List Nat)) (c : PCfg) (ch : Nat)
    (c₁ : PCfg) (h : stepByte e c ch = .cont c₁) : c₁.state ≠ .ok := by
  obtain ⟨st, sc, bp⟩ := c
  cases st
  all_goals simp [stepByte] at h
  all_goals split_ifs at h
  all_goals (injection h with h₂; subst h₂; simp)

/-- The byte loop preserves the absence of the OK state on the continuing
path. -/
theorem consume_cont_ne_ok (e : Option (List Nat)) :
    ∀ (bs : List Nat) (c c₁ : PCfg), c.state ≠ .ok →
      consume e c bs = .cont c₁ → c₁.state ≠ .ok := by
  intro bs
  induction bs with
  | nil =>
      intro c c₁ hc h
      simp only [consume] at h
      cases h
      exact hc
  | cons ch rest ih =>
      intro c c₁ hc h
      simp only [consume] at h
      cases hstep : stepByte e c ch with
      | cont c₂ =>
          rw [hstep] at h
          exact ih c₂ c₁ (stepByte_cont_ne_ok e c ch c₂ hstep) h
      | halt v =>
          rw [hstep] at h
          cases h

/-- Claim C2 counterexample: with expected body pong (bytes 112 111 110
103) and the response HTTP/1.1 200 OK CRLF CRLF pong X, the split that
ends the first chunk exactly at the end of the expected body gives final
verdict OK on sequential feeding, while the concatenated input gives
BadBody; so the verdict is neither split-invariant nor BadBody under every
split. -/
theorem chunk_invariance_counterexample :
    feedTwo (some [112, 111, 110, 103]) initCfg
        [72, 84, 84, 80, 47, 49, 46, 49, 32, 50, 48, 48, 32, 79, 75,
          13, 10, 13, 10, 112, 111, 110, 103]
        [88] = .done .ok ∧
      ngx_http_healthcheck_process_recv (some [112, 111, 110, 103]) initCfg
        ([72, 84, 84, 80, 47, 49, 46, 49, 32, 50, 48, 48, 32, 79, 75,
          13, 10, 13, 10, 112, 111, 110, 103] ++ [88]) = .done .badBody :=
  ⟨rfl, rfl⟩

/-- Claim C2 (amended): for every response byte sequence and every split
of it into two chunks fed in sequence, the outcome of sequential feeding
equals the outcome on the concatenated sequence, except in exactly one
situation: when the first chunk ends precisely at the completion of the
expected body and the second chunk is nonempty, sequential feeding ends
the probe with OK while the concatenated input yields BadBody. -/
theorem chunk_invariance_amended (e : Option (List Nat)) (bs₁ bs₂ : List Nat) :
    feedTwo e initCfg bs₁ bs₂ =
        ngx_http_healthcheck_process_recv e initCfg (bs₁ ++ bs₂) ∨
      (bs₂ ≠ [] ∧
        feedTwo e initCfg bs₁ bs₂ = .done .ok ∧
        ngx_http_healthcheck_process_recv e initCfg (bs₁ ++ bs₂) =
          .done .badBody) := by
  have hap := consume_append e bs₁ bs₂ initCfg
  cases h₁ : consume e initCfg bs₁ with
  | halt v =>
      left
      rw [h₁] at hap
      simp [feedTwo, ngx_http_healthcheck_process_recv, h₁, hap]
  | cont c₁ =>
      rw [h₁] at hap
      replace hap : consume e initCfg (bs₁ ++ bs₂) = consume e c₁ bs₂ := by
        rw [hap]
      by_cases hb : c₁.state = .readingBody ∧ c₁.body_read_pos = expLen e
      · have hp₁ : ngx_http_healthcheck_process_recv e initCfg bs₁ = .done .ok := by
          simp [ngx_http_healthcheck_process_recv, h₁, hb.1, hb.2]
        cases bs₂ with
        | nil =>
            left
            simp [feedTwo, hp₁, List.append_nil]
        | cons b rest =>
            right
            refine ⟨by simp, by simp [feedTwo, hp₁], ?_⟩
            have hstep : stepByte e c₁ b = .halt .badBody := by
              simp [stepByte, hb.1, hb.2]
            simp [ngx_http_healthcheck_process_recv, hap, consume, hstep]
      · have hne : c₁.state ≠ .ok :=
          consume_cont_ne_ok e bs₁ initCfg c₁ (by simp [initCfg]) h₁
        have hp₁ : ngx_http_healthcheck_process_recv e initCfg bs₁ = .more c₁ := by
          simp [ngx_http_healthcheck_process_recv, h₁, hb, hne]
        left
        have hf : feedTwo e initCfg bs₁ bs₂ =
            ngx_http_healthcheck_process_recv e c₁ bs₂ := by
          unfold feedTwo
          rw [hp₁]
        rw [hf]
        unfold ngx_http_healthcheck_process_recv
        rw [hap]

/-- In the status-code state, consuming a run of digit bytes keeps the
recognizer in that state and leaves stat_code at the machine-word decimal
accumulator value. -/
theorem consume_digits (e : Option (List Nat)) :
    ∀ (ds : List Nat) (sc bp : Nat), (∀ d ∈ ds, 48 ≤ d ∧ d ≤ 57) →
      consume e ⟨.readingStatCode, sc, bp⟩ ds =
        .cont ⟨.readingStatCode, digitsAcc sc ds, bp⟩ := by
  intro ds
  induction ds with
  | nil =>
      intro sc bp _
      simp [consume, digitsAcc]
  | cons d rest ih =>
      intro sc bp hd
      obtain ⟨hd₁, hd₂⟩ := hd d (by simp)
      have hne : d ≠ 32 := by omega
      have hdig : ¬(d < 48 ∨ 57 < d) := by omega
      have hstep : stepByte e ⟨.readingStatCode, sc, bp⟩ d =
          .cont ⟨.readingStatCode, (sc * 10 + (d - 48)) % wordSize, bp⟩ := by
        simp [stepByte, hne, hdig]
      simp only [consume, hstep]
      rw [ih _ _ (fun x hx => hd x (by simp [hx]))]
      simp [digitsAcc]

/-- Claim C5: the status-code recognizer accepts exactly the accumulated
code 200.  On the terminating space byte the recognizer moves to the
header state when stat_code equals 200 and halts with BadCode otherwise;
on any byte that is neither a digit nor a space it halts with BadStatus. -/
theorem stat_code_accepts_only_200 (e : Option (List Nat)) (ds : List Nat)
    (sc bp : Nat) (hds : ∀ d ∈ ds, 48 ≤ d ∧ d ≤ 57) :
    (consume e ⟨.readingStatCode, sc, bp⟩ (ds ++ [32]) =
        if digitsAcc sc ds = 200 then
          .cont ⟨.readingHeader, digitsAcc sc ds, bp⟩
        else
          .halt .badCode) ∧
      (∀ ch, ¬(48 ≤ ch ∧ ch ≤ 57) → ch ≠ 32 →
        stepByte e ⟨.readingStatCode, sc, bp⟩ ch = .halt .badStatus) := by
  constructor
  · have h := consume_append e ds [32] ⟨.readingStatCode, sc, bp⟩
    rw [consume_digits e ds sc bp hds] at h
    rw [h]
    by_cases h200 : digitsAcc sc ds = 200
    · simp [consume, stepByte, h200]
    · simp [consume, stepByte, h200]
  · intro ch h₁ h₂
    have hdig : ch < 48 ∨ 57 < ch := by omega
    simp [stepByte, h₂, hdig]

/-- Claim C5 witness: the status code 404 followed by a space halts with
BadCode. -/
theorem stat_code_accepts_only_200_witness :
    consume none ⟨.readingStatCode, 0, 0⟩ ([52, 48, 52] ++ [32]) =
      .halt .badCode := by
  have h := (stat_code_accepts_only_200 none [52, 48, 52] 0 0 (by decide)).1
  rw [show digitsAcc 0 [52, 48, 52] = 404 from rfl] at h
  simpa using h

/-- The machine-word accumulator equals the unbounded decimal value
reduced modulo the word size. -/
theorem digitsAcc_mod (ds : List Nat) :
    ∀ s : Nat, digitsAcc (s % wordSize) ds = digitsValFrom s ds % wordSize := by
  induction ds with
  | nil =>
      intro s
      simp [digitsAcc, digitsValFrom]
  | cons d rest ih =>
      intro s
      have hmm : (s % wordSize * 10 + (d - 48)) % wordSize =
          (s * 10 + (d - 48)) % wordSize :=
        ((Nat.mod_modEq s wordSize).mul_right 10).add_right (d - 48)
      simp only [digitsAcc, digitsValFrom, List.foldl_cons]
      rw [hmm]
      exact ih (s * 10 + (d - 48))

/-- Specialization to the zero accumulator the recognizer starts from. -/
theorem digitsAcc_zero (ds : List Nat) :
    digitsAcc 0 ds = digitsVal ds % wordSize := by
  have h := digitsAcc_mod ds 0
  simpa [digitsVal] using h

/-- Claim C10: acceptance of the status code depends only on the decimal
value of the digit string modulo the machine word: from a zero
accumulator, the digits followed by a space reach the header state with
code 200 exactly when the unbounded decimal value is congruent to 200
modulo 2 ^ 64; no bound is placed on the number of digits, so strings
with leading zeros such as 0200 are accepted. -/
theorem stat_code_mod_word (e : Option (List Nat)) (ds : List Nat) (bp : Nat)
    (hds : ∀ d ∈ ds, 48 ≤ d ∧ d ≤ 57) :
    consume e ⟨.readingStatCode, 0, bp⟩ (ds ++ [32]) =
        .cont ⟨.readingHeader, 200, bp⟩ ↔
      digitsVal ds % wordSize = 200 := by
  have h := consume_append e ds [32] ⟨.readingStatCode, 0, bp⟩
  rw [consume_digits e ds 0 bp hds] at h
  have hacc := digitsAcc_zero ds
  constructor
  · intro hc
    rw [h] at hc
    by_cases h200 : digitsAcc 0 ds = 200
    · rw [← hacc]
      exact h200
    · exfalso
      revert hc
      simp [consume, stepByte, h200]
  · intro hv
    have h200 : digitsAcc 0 ds = 200 := by
      rw [hacc]
      exact hv
    rw [h]
    simp [consume, stepByte, h200]

/-- Claim C10 witness: the digit string 0200 is accepted as code 200. -/
theorem stat_code_mod_word_witness :
    consume none ⟨.readingStatCode, 0, 0⟩ ([48, 50, 48, 48] ++ [32]) =
      .cont ⟨.readingHeader, 200, 0⟩ :=
  (stat_code_mod_word none [48, 50, 48, 48] 0 (by decide)).mpr (by decide)

/-- Claim C1: the verdict filter, fed a terminal outcome st with
bad = (st is not OK), increments concurrent when bad equals the stored
last_down, otherwise writes last_down := bad, concurrent := 1 and
since := now; afterwards, whenever concurrent has reached failcount (on
every such probe, not only on a transition) down is set to bad, and
otherwise down is untouched; finally down_code is set to st. -/
theorem verdict_filter_updates (now : Nat) (failcount : Int) (delay : Nat)
    (sd : Bool) (st : HState) (shm : ShmSlot) (hterm : isTerminal st = true) :
    ((decide (st ≠ HState.ok) = shm.last_down →
        (ngx_http_healthcheck_mark_finished now failcount delay sd st shm).shm.concurrent =
            shm.concurrent + 1 ∧
          (ngx_http_healthcheck_mark_finished now failcount delay sd st shm).shm.last_down =
            shm.last_down ∧
          (ngx_http_healthcheck_mark_finished now failcount delay sd st shm).shm.since =
            shm.since) ∧
      (decide (st ≠ HState.ok) ≠ shm.last_down →
        (ngx_http_healthcheck_mark_finished now failcount delay sd st shm).shm.last_down =
            decide (st ≠ HState.ok) ∧
          (ngx_http_healthcheck_mark_finished now failcount delay sd st shm).shm.concurrent = 1 ∧
          (ngx_http_healthcheck_mark_finished now failcount delay sd st shm).shm.since = now)) ∧
      (failcount ≤ (ngx_http_healthcheck_mark_finished now failcount delay sd st shm).shm.concurrent →
        (ngx_http_healthcheck_mark_finished now failcount delay sd st shm).shm.down =
          decide (st ≠ HState.ok)) ∧
      ((ngx_http_healthcheck_mark_finished now failcount delay sd st shm).shm.concurrent < failcount →
        (ngx_http_healthcheck_mark_finished now failcount delay sd st shm).shm.down = shm.down) ∧
      (ngx_http_healthcheck_mark_finished now failcount delay sd st shm).shm.down_code = st := by
  by_cases hok : st = HState.ok <;>
    cases hld : shm.last_down <;>
      simp [ngx_http_healthcheck_mark_finished, hok, hld] <;>
        split_ifs <;>
          simp_all

/-- Claim C1 witness: a BadCode outcome arriving while last_down is
already set extends the bad run by one. -/
theorem verdict_filter_updates_witness :
    (ngx_http_healthcheck_mark_finished 5 2 7 false HState.badCode
        { owner := 0, index := 0, action_time := 0, concurrent := 1, since := 0,
          last_down := true, down_code := HState.ok, lock := 0,
          down := false }).shm.concurrent = 1 + 1 := by
  have h := verdict_filter_updates 5 2 7 false HState.badCode
    { owner := 0, index := 0, action_time := 0, concurrent := 1, since := 0,
      last_down := true, down_code := HState.ok, lock := 0, down := false } rfl
  exact (h.1.1 (by decide)).1

/-- Claim C3: a worker whose pid differs from the stored owner acquires
ownership exactly when now minus action_time (machine-word subtraction)
has reached (delay + timeout) * 3; on acquisition it writes owner := pid
and action_time := now, moves its private state to Waiting and arms the
health timer with the configured delay; and the claim timer is armed with
delay * 10 exactly when the worker does not end up owning the peer. -/
theorem ownership_attempt (pid now delay tmo : Nat) (st : HState)
    (shm : ShmSlot) (hown : shm.owner ≠ pid) :
    ((ngx_http_healthcheck_try_for_ownership pid now delay tmo false st shm).i_own_it = true ↔
        (delay + tmo) * 3 ≤ msub now shm.action_time) ∧
      ((ngx_http_healthcheck_try_for_ownership pid now delay tmo false st shm).i_own_it = true →
        (ngx_http_healthcheck_try_for_ownership pid now delay tmo false st shm).shm.owner = pid ∧
          (ngx_http_healthcheck_try_for_ownership pid now delay tmo false st shm).shm.action_time = now ∧
          (ngx_http_healthcheck_try_for_ownership pid now delay tmo false st shm).state = HState.waiting ∧
          (ngx_http_healthcheck_try_for_ownership pid now delay tmo false st shm).health_timer = some delay) ∧
      ((ngx_http_healthcheck_try_for_ownership pid now delay tmo false st shm).ownership_timer = some (delay * 10) ↔
        (ngx_http_healthcheck_try_for_ownership pid now delay tmo false st shm).i_own_it = false) := by
  by_cases hstale : (delay + tmo) * 3 ≤ msub now shm.action_time <;>
    simp [ngx_http_healthcheck_try_for_ownership, hown, hstale]

/-- Claim C3 witness: with a stale action_time the attempting worker takes
over the slot. -/
theorem ownership_attempt_witness :
    (ngx_http_healthcheck_try_for_ownership 2 1000000 10 5 false HState.uninit
        { owner := 1, index := 0, action_time := 0, concurrent := 0, since := 0,
          last_down := false, down_code := HState.uninit, lock := 0,
          down := false }).shm.owner = 2 := by
  have h := ownership_attempt 2 1000000 10 5 HState.uninit
    { owner := 1, index := 0, action_time := 0, concurrent := 0, since := 0,
      last_down := false, down_code := HState.uninit, lock := 0, down := false }
    (by decide)
  exact (h.2.1 (h.1.mpr (by decide))).1

/-- Claim C7 counterexample: on the takeover path the delay timer is armed
by the statement between the spinlock acquisition and the release CAS, so
a timer operation does occur inside the critical section. -/
theorem spinlock_timer_counterexample :
    (critSection (ngx_http_healthcheck_try_for_ownership_trace 2 1000000 10 5
        { owner := 1, index := 0, action_time := 0, concurrent := 0, since := 0,
          last_down := false, down_code := HState.uninit, lock := 0,
          down := false })).any isTimerOp = true := by
  decide

/-- Claim C7 (amended): the spinlock is never held across I/O or sleeps,
and the only timer operation inside the critical section is the arming of
the delay timer on the takeover path; in every other execution no timer
operation happens while the lock is held. -/
theorem spinlock_critical_section (pid now delay tmo : Nat) (shm : ShmSlot) :
    ((critSection (ngx_http_healthcheck_try_for_ownership_trace pid now delay tmo shm)).all
        (fun ev => !isBlockingOp ev) = true) ∧
      ((critSection (ngx_http_healthcheck_try_for_ownership_trace pid now delay tmo shm)).any
          isTimerOp = true ↔
        (shm.owner ≠ pid ∧ (delay + tmo) * 3 ≤ msub now shm.action_time)) := by
  by_cases h₁ : shm.owner = pid <;>
    by_cases h₂ : (delay + tmo) * 3 ≤ msub now shm.action_time <;>
      simp [ngx_http_healthcheck_try_for_ownership_trace, critSection, h₁, h₂,
        isTimerOp, isBlockingOp, notAcquire, notRelease,
        List.dropWhile, List.takeWhile]

/-- Claim C4 (code defect): the do-while condition of the recv loop is
rb->end < rb->pos, which never holds because recv returns at most the
requested end - pos bytes, so the transcribed loop performs exactly one
recv call per readable event and stops after a successful short read with
buffer space left and data still pending, while the loop as specified
keeps reading until would-block (three recv calls on the same script). -/
theorem recv_loop_single_call :
    recvLoop { pos := 0, endp := 10 }
        [RecvRes.got 3, RecvRes.got 4, RecvRes.again] 0 =
        ({ pos := 3, endp := 10 }, false, 1) ∧
      recvLoopSpec { pos := 0, endp := 10 }
        [RecvRes.got 3, RecvRes.got 4, RecvRes.again] 0 =
        ({ pos := 7, endp := 10 }, false, 3) :=
  ⟨rfl, rfl⟩

/-- A halting byte step never carries the FullBuffer code: the parser
halts only with OK, BadStatus, BadCode, BadBody or BadState. -/
theorem stepByte_halt_not_fullBuffer (e : Option (List Nat)) (c : PCfg)
    (ch : Nat) (v : HState) (h : stepByte e c ch = .halt v) :
    v ≠ .fullBuffer := by
  obtain ⟨st, sc, bp⟩ := c
  cases st
  all_goals simp [stepByte] at h
  all_goals try (split_ifs at h)
  all_goals try (injection h with h₂)
  all_goals try (subst h)
  all_goals try (subst h₂)
  all_goals simp

/-- The byte loop never halts with the FullBuffer code. -/
theorem consume_halt_not_fullBuffer (e : Option (List Nat)) :
    ∀ (bs : List Nat) (c : PCfg) (v : HState),
      consume e c bs = .halt v → v ≠ .fullBuffer := by
  intro bs
  induction bs with
  | nil =>
      intro c v h
      simp [consume] at h
  | cons ch rest ih =>
      intro c v h
      simp only [consume] at h
      cases hstep : stepByte e c ch with
      | cont c₁ =>
          rw [hstep] at h
          exact ih c₁ v h
      | halt w =>
          rw [hstep] at h
          have hwv : w = v := by
            injection h
          exact hwv ▸ stepByte_halt_not_fullBuffer e c ch w hstep

/-- The parser itself never returns the FullBuffer code: FullBuffer can
only come from the read handler dispatch. -/
theorem process_recv_not_fullBuffer (e : Option (List Nat)) (c : PCfg)
    (bs : List Nat) :
    ngx_http_healthcheck_process_recv e c bs ≠ .done .fullBuffer := by
  cases h : consume e c bs with
  | halt v =>
      have hv := consume_halt_not_fullBuffer e bs c v h
      simp [ngx_http_healthcheck_process_recv, h, hv]
  | cont c₁ =>
      simp only [ngx_http_healthcheck_process_recv, h]
      split_ifs <;> simp

/-- Claim C6: the read handler finishes with FullBuffer exactly when the
parser returned NeedMore while the read buffer has no free space left;
whenever the parser reaches a verdict on the buffered contents, the probe
ends with that verdict regardless of buffer fullness. -/
theorem full_buffer_only_on_need_more (e : Option (List Nat)) (c : PCfg)
    (bs : List Nat) (full : Bool) :
    (ngx_http_healthcheck_read_verdict e c bs full = some HState.fullBuffer ↔
        ((∃ c₁, ngx_http_healthcheck_process_recv e c bs = .more c₁) ∧
          full = true)) ∧
      (∀ v, ngx_http_healthcheck_process_recv e c bs = .done v →
        ngx_http_healthcheck_read_verdict e c bs full = some v) := by
  cases hp : ngx_http_healthcheck_process_recv e c bs with
  | done v =>
      refine ⟨⟨fun h => ?_, fun h => ?_⟩, fun w hw => ?_⟩
      · exfalso
        have hv : v = HState.fullBuffer := by
          simpa [ngx_http_healthcheck_read_verdict, hp] using h
        exact process_recv_not_fullBuffer e c bs (hv ▸ hp)
      · exfalso
        obtain ⟨⟨c₁, hc⟩, -⟩ := h
        simp at hc
      · have hvw : v = w := by
          injection hw
        simp [ngx_http_healthcheck_read_verdict, hp, hvw]
  | more c₁ =>
      refine ⟨?_, fun w hw => ?_⟩
      · cases full with
        | false => simp [ngx_http_healthcheck_read_verdict, hp]
        | true =>
            simp [ngx_http_healthcheck_read_verdict, hp]
      · simp at hw

/-- Claim C6 witness: a valid reply whose body matches the expectation
ends the probe with OK even when it exactly fills the read buffer. -/
theorem full_buffer_only_on_need_more_witness :
    ngx_http_healthcheck_read_verdict (some [112, 111, 110, 103]) initCfg
        [72, 84, 84, 80, 47, 49, 46, 49, 32, 50, 48, 48, 32, 79, 75,
          13, 10, 13, 10, 112, 111, 110, 103]
        true = some HState.ok :=
  (full_buffer_only_on_need_more (some [112, 111, 110, 103]) initCfg
      [72, 84, 84, 80, 47, 49, 46, 49, 32, 50, 48, 48, 32, 79, 75,
        13, 10, 13, 10, 112, 111, 110, 103] true).2 HState.ok rfl

/-- Claim C8: is_down holds exactly when the index is in range, the
upstream has healthchecks enabled and the shared down bit is set; for an
out-of-range index the result is false whatever the shared table holds
(the short-circuit conjunction never reaches it). -/
theorem is_down_characterization (peers : List UpstreamConf)
    (shm : List ShmSlot) (index : Nat) :
    (ngx_http_healthcheck_is_down peers shm index = true ↔
        (index < peers.length ∧
          (peers.getD index { healthcheck_enabled := false }).healthcheck_enabled = true ∧
          (shm.getD index dfltSlot).down = true)) ∧
      (peers.length ≤ index →
        ∀ shm₁ : List ShmSlot,
          ngx_http_healthcheck_is_down peers shm₁ index = false) := by
  constructor
  · simp [ngx_http_healthcheck_is_down, Bool.and_eq_true, and_assoc]
  · intro h shm₁
    simp [ngx_http_healthcheck_is_down, Nat.not_lt.mpr h]

/-- Claim C8 witness: with no registered peers, index 5 reports not down
on an arbitrary shared table. -/
theorem is_down_characterization_witness :
    ngx_http_healthcheck_is_down [] [dfltSlot] 5 = false :=
  (is_down_characterization [] [dfltSlot] 5).2 (by decide) [dfltSlot]

/-- Elementwise description of the zone-initialization loop, with the
running start index made explicit. -/
theorem initZoneGo_getD (now : Nat) :
    ∀ (l : List ShmSlot) (i₀ i : Nat), i < l.length →
      (initZoneGo now i₀ l).getD i dfltSlot =
        { l.getD i dfltSlot with
            index := i₀ + i, action_time := 0, down := false, since := now } := by
  intro l
  induction l with
  | nil =>
      intro i₀ i h
      simp at h
  | cons s rest ih =>
      intro i₀ i h
      cases i with
      | zero => simp [initZoneGo]
      | succ j =>
          have hj : j < rest.length := by simpa using h
          simp only [initZoneGo, List.getD_cons_succ]
          rw [ih (i₀ + 1) j hj]
          have hidx : i₀ + 1 + j = i₀ + (j + 1) := by omega
          rw [hidx]

/-- Claim C9: on first mapping, zone initialization writes exactly
index := i, action_time := 0, down := false and since := now into slot i,
and leaves owner, lock, concurrent, last_down and down_code exactly as the
slab allocator returned them. -/
theorem init_zone_fields (now : Nat) (slots : List ShmSlot) (i : Nat)
    (h : i < slots.length) :
    ((ngx_http_healthcheck_init_zone now slots).getD i dfltSlot).index = i ∧
      ((ngx_http_healthcheck_init_zone now slots).getD i dfltSlot).action_time = 0 ∧
      ((ngx_http_healthcheck_init_zone now slots).getD i dfltSlot).down = false ∧
      ((ngx_http_healthcheck_init_zone now slots).getD i dfltSlot).since = now ∧
      ((ngx_http_healthcheck_init_zone now slots).getD i dfltSlot).owner =
        (slots.getD i dfltSlot).owner ∧
      ((ngx_http_healthcheck_init_zone now slots).getD i dfltSlot).lock =
        (slots.getD i dfltSlot).lock ∧
      ((ngx_http_healthcheck_init_zone now slots).getD i dfltSlot).concurrent =
        (slots.getD i dfltSlot).concurrent ∧
      ((ngx_http_healthcheck_init_zone now slots).getD i dfltSlot).last_down =
        (slots.getD i dfltSlot).last_down ∧
      ((ngx_http_healthcheck_init_zone now slots).getD i dfltSlot).down_code =
        (slots.getD i dfltSlot).down_code := by
  have hgo := initZoneGo_getD now slots 0 i h
  rw [Nat.zero_add] at hgo
  unfold ngx_http_healthcheck_init_zone
  rw [hgo]
  simp

/-- Claim C9 witness: a slot full of garbage keeps its owner, lock,
concurrent, last_down and down_code through zone initialization; here the
preserved owner field. -/
theorem init_zone_fields_witness :
    ((ngx_http_healthcheck_init_zone 42
        [{ owner := 7, index := 9, action_time := 5, concurrent := 3, since := 4,
           last_down := true, down_code := HState.badBody, lock := 8,
           down := true }]).getD 0 dfltSlot).owner = 7 := by
  have h := init_zone_fields 42
    [{ owner := 7, index := 9, action_time := 5, concurrent := 3, since := 4,
       last_down := true, down_code := HState.badBody, lock := 8, down := true }]
    0 (by decide)
  exact h.2.2.2.2.1
